import Mathlib

/-!
# Ledger & Financial State Engine — verification development

Shallow embedding of the money_manager ledger core (Rust/Tauri/SQLite, under
`src-tauri/src/commands/`), together with proofs of the spec's claims about it.

Conventions of the embedding:
* SQLite `REAL` money amounts are modelled as `ℚ`; the operations the engine
  performs on them (addition, subtraction, `min`, `abs`, comparisons, division
  by a nonzero rate) are modelled exactly.
* ISO `YYYY-MM-DD` date strings are modelled by a `Date` structure; SQL string
  comparison of such dates is order-isomorphic to comparison of the injective
  key `year*10000 + month*100 + day`, which is what `Date.key` provides.
* chrono's `NaiveDate::from_ymd_opt` becomes `fromYmdOpt`, `+ Duration::days(1)`
  becomes `Date.succ`, `pred_opt` becomes `Date.pred`.
* Each SQL table becomes a list of rows inside a `Db` record; an operation
  wrapped in a store transaction becomes a pure function `Db → Except String Db`
  (or similar), so an atomic multi-statement unit either fully applies or
  leaves the state untouched by construction.
-/

namespace MoneyManager

/-- Calendar date, standing for a chrono `NaiveDate` / an ISO `YYYY-MM-DD`
SQLite string. -/
structure Date where
  year : Int
  month : Nat
  day : Nat
deriving DecidableEq, Repr

/-- Gregorian leap-year test (as chrono implements it). -/
def isLeapYear (y : Int) : Bool :=
  (y % 4 == 0 && y % 100 != 0) || (y % 400 == 0)

/-- Number of days of a month; `0` for an invalid month number. -/
def daysInMonth (y : Int) (m : Nat) : Nat :=
  match m with
  | 1 => 31
  | 2 => if isLeapYear y then 29 else 28
  | 3 => 31
  | 4 => 30
  | 5 => 31
  | 6 => 30
  | 7 => 31
  | 8 => 31
  | 9 => 30
  | 10 => 31
  | 11 => 30
  | 12 => 31
  | _ => 0

/-- chrono `NaiveDate::from_ymd_opt`: `some` exactly on calendar-valid dates. -/
def fromYmdOpt (y : Int) (m : Nat) (d : Nat) : Option Date :=
  if 1 ≤ m ∧ m ≤ 12 ∧ 1 ≤ d ∧ d ≤ daysInMonth y m then some ⟨y, m, d⟩ else none

/-- A calendar-valid date (what chrono's `NaiveDate` guarantees). -/
def Date.Valid (d : Date) : Prop :=
  1 ≤ d.month ∧ d.month ≤ 12 ∧ 1 ≤ d.day ∧ d.day ≤ daysInMonth d.year d.month

instance (d : Date) : Decidable d.Valid := by unfold Date.Valid; infer_instance

/-- Injective key such that comparing keys of valid dates agrees with SQL's
lexicographic comparison of their ISO strings. -/
def Date.key (d : Date) : Int :=
  d.year * 10000 + (d.month : Int) * 100 + (d.day : Int)

/-- The next calendar day (`date + chrono::Duration::days(1)`). -/
def Date.succ (d : Date) : Date :=
  if d.day < daysInMonth d.year d.month then ⟨d.year, d.month, d.day + 1⟩
  else if d.month < 12 then ⟨d.year, d.month + 1, 1⟩
  else ⟨d.year + 1, 1, 1⟩

/-- The previous calendar day (`pred_opt`, total here: chrono only fails at its
minimum representable date). -/
def Date.pred (d : Date) : Date :=
  if 1 < d.day then ⟨d.year, d.month, d.day - 1⟩
  else if 1 < d.month then ⟨d.year, d.month - 1, daysInMonth d.year (d.month - 1)⟩
  else ⟨d.year - 1, 12, 31⟩

-- ======================= Credit-card billing cycle =======================
-- from commands/credit_cards.rs

/-- `make_date` (credit_cards.rs): `from_ymd_opt` falling back to day 28. -/
def make_date (year : Int) (month : Nat) (day : Int) : Date :=
  match fromYmdOpt year month day.toNat with
  | some dt => dt
  | none => ⟨year, month, 28⟩

/-- `compute_current_cycle_dates` (credit_cards.rs): the current billing cycle
`(cycle_start, cycle_end)` for a given `today` and `statement_day`. -/
def compute_current_cycle_dates (today : Date) (statement_day : Int) : Date × Date :=
  let current_day : Int := (today.day : Int)
  if current_day ≤ statement_day then
    let cycle_end := make_date today.year today.month statement_day
    let prev_month :=
      if today.month == 1 then fromYmdOpt (today.year - 1) 12 statement_day.toNat
      else fromYmdOpt today.year (today.month - 1) statement_day.toNat
    let cycle_start :=
      match prev_month with
      | some d => d.succ
      | none => today
    (cycle_start, cycle_end)
  else
    let cycle_start := (make_date today.year today.month statement_day).succ
    let next_month :=
      if today.month == 12 then fromYmdOpt (today.year + 1) 1 statement_day.toNat
      else fromYmdOpt today.year (today.month + 1) statement_day.toNat
    let cycle_end := (next_month).getD today
    (cycle_start, cycle_end)

-- ======================= Helper lemmas on dates =======================

theorem daysInMonth_ge_28 (y : Int) (m : Nat) (h1 : 1 ≤ m) (h2 : m ≤ 12) :
    28 ≤ daysInMonth y m := by
  interval_cases m <;> first
    | (simp only [daysInMonth]; omega)
    | (simp only [daysInMonth]; split <;> omega)

theorem fromYmdOpt_eq_some (y : Int) (m d : Nat) (h1 : 1 ≤ m) (h2 : m ≤ 12)
    (h3 : 1 ≤ d) (h4 : d ≤ 28) : fromYmdOpt y m d = some ⟨y, m, d⟩ := by
  have := daysInMonth_ge_28 y m h1 h2
  unfold fromYmdOpt
  rw [if_pos]
  exact ⟨h1, h2, h3, by omega⟩

/-- C4: for every valid date `today` and statement day `D ∈ 1..=28`, the billing
cycle is: if today's day-of-month ≤ D, it ends on day D of the current month and
starts the day after day D of the previous month; otherwise it ends on day D of
next month and starts the day after day D of this month. In particular, for
`statement_day = 25`, today 2025-03-10 gives the cycle [2025-02-26, 2025-03-25]
and today 2025-03-26 gives [2025-03-26, 2025-04-25]. -/
theorem compute_current_cycle_dates_correct (today : Date) (D : Int)
    (hv : today.Valid) (hD1 : 1 ≤ D) (hD28 : D ≤ 28) :
    (((today.day : Int) ≤ D →
        compute_current_cycle_dates today D =
          (Date.succ ⟨(if today.month = 1 then today.year - 1 else today.year),
                      (if today.month = 1 then 12 else today.month - 1), D.toNat⟩,
           ⟨today.year, today.month, D.toNat⟩)) ∧
     (D < (today.day : Int) →
        compute_current_cycle_dates today D =
          (Date.succ ⟨today.year, today.month, D.toNat⟩,
           ⟨(if today.month = 12 then today.year + 1 else today.year),
            (if today.month = 12 then 1 else today.month + 1), D.toNat⟩))) ∧
    compute_current_cycle_dates ⟨2025, 3, 10⟩ 25 = (⟨2025, 2, 26⟩, ⟨2025, 3, 25⟩) ∧
    compute_current_cycle_dates ⟨2025, 3, 26⟩ 25 = (⟨2025, 3, 26⟩, ⟨2025, 4, 25⟩) := by
  obtain ⟨hm1, hm12, hd1, hdm⟩ := hv
  have ht1 : 1 ≤ D.toNat := by omega
  have ht28 : D.toNat ≤ 28 := by omega
  refine ⟨⟨?_, ?_⟩, by decide, by decide⟩
  · intro hle
    simp only [compute_current_cycle_dates, make_date, if_pos hle,
      fromYmdOpt_eq_some today.year today.month D.toNat hm1 hm12 ht1 ht28]
    by_cases hone : today.month = 1
    · simp only [hone, beq_self_eq_true, if_true,
        fromYmdOpt_eq_some (today.year - 1) 12 D.toNat (by omega) (by omega) ht1 ht28]
    · have : (today.month == 1) = false := by simp [hone]
      simp only [this, Bool.false_eq_true, if_false,
        fromYmdOpt_eq_some today.year (today.month - 1) D.toNat (by omega) (by omega) ht1 ht28]
      simp [hone]
  · intro hgt
    have hnle : ¬ ((today.day : Int) ≤ D) := by omega
    simp only [compute_current_cycle_dates, make_date, if_neg hnle,
      fromYmdOpt_eq_some today.year today.month D.toNat hm1 hm12 ht1 ht28]
    by_cases h12 : today.month = 12
    · simp only [h12, beq_self_eq_true, if_true,
        fromYmdOpt_eq_some (today.year + 1) 1 D.toNat (by omega) (by omega) ht1 ht28,
        Option.getD_some]
    · have : (today.month == 12) = false := by simp [h12]
      simp only [this, Bool.false_eq_true, if_false,
        fromYmdOpt_eq_some today.year (today.month + 1) D.toNat (by omega) (by omega) ht1 ht28,
        Option.getD_some]
      simp [h12]

theorem compute_current_cycle_dates_correct_witness :
    compute_current_cycle_dates ⟨2025, 3, 10⟩ 25 =
      (Date.succ ⟨(if (3 : Nat) = 1 then 2025 - 1 else 2025),
                  (if (3 : Nat) = 1 then 12 else 3 - 1), (25 : Int).toNat⟩,
       ⟨2025, 3, (25 : Int).toNat⟩) :=
  (compute_current_cycle_dates_correct ⟨2025, 3, 10⟩ 25 (by decide) (by decide)
    (by decide)).1.1 (by decide)

-- ======================= Data model =======================
-- Tables as in the migrations' relational schema, rows as in models/*.rs.

/-- Money amounts (SQLite `REAL` / Rust `f64`), modelled exactly over `ℚ`. -/
abbrev Money := ℚ

/-- SQL string comparison of two ISO dates. -/
def Date.leb (a b : Date) : Bool := decide (a.key ≤ b.key)

structure AccountGroup where
  id : Int
  type : String
deriving DecidableEq, Repr

structure Account where
  id : Int
  group_id : Int
  initial_balance : Money
deriving DecidableEq, Repr

structure Transaction where
  id : Int
  date : Date
  type : String
  amount : Money
  account_id : Int
  to_account_id : Option Int
  category_id : Option Int
  memo : Option String
deriving DecidableEq, Repr

structure JournalEntry where
  transaction_id : Int
  account_id : Int
  debit : Money
  credit : Money
deriving DecidableEq, Repr

/-- Statement status; the schema stores the strings OPEN/CLOSED/PARTIAL/PAID
(§3 of the spec), which are the only values any code path writes. -/
inductive StmtStatus | OPEN | CLOSED | PARTIAL | PAID
deriving DecidableEq, Repr

structure CreditCardSettings where
  id : Int
  account_id : Int
  credit_limit : Money
  statement_day : Int
  payment_due_day : Int
  minimum_payment_percentage : Money
  auto_settlement_enabled : Bool
  settlement_account_id : Option Int
deriving DecidableEq, Repr

structure CreditCardStatement where
  id : Int
  credit_card_id : Int
  statement_date : Date
  due_date : Date
  cycle_start_date : Date
  cycle_end_date : Date
  opening_balance : Money
  total_charges : Money
  total_payments : Money
  closing_balance : Money
  minimum_payment : Money
  status : StmtStatus
  paid_amount : Money
  paid_date : Option Date
deriving DecidableEq, Repr

structure ExchangeRate where
  id : Int
  from_currency : String
  to_currency : String
  rate : Money
  effective_date : Date
deriving DecidableEq, Repr

structure NetWorthSnapshot where
  snapshot_date : Date
  total_assets : Money
  total_liabilities : Money
  net_worth : Money
deriving DecidableEq, Repr

/-- The relational store. `next_transaction_id` models SQLite's rowid
auto-increment for the transactions table. -/
structure Db where
  account_groups : List AccountGroup
  accounts : List Account
  categories : List Int
  transactions : List Transaction
  journal_entries : List JournalEntry
  credit_card_settings : List CreditCardSettings
  credit_card_statements : List CreditCardStatement
  exchange_rates : List ExchangeRate
  net_worth_snapshots : List NetWorthSnapshot
  next_transaction_id : Int
deriving DecidableEq, Repr

def accountExists (db : Db) (id : Int) : Bool :=
  db.accounts.any (fun a => a.id == id)

def categoryExists (db : Db) (id : Int) : Bool :=
  db.categories.any (fun c => c == id)

def sumDebit (es : List JournalEntry) : Money := (es.map (fun e => e.debit)).sum

def sumCredit (es : List JournalEntry) : Money := (es.map (fun e => e.credit)).sum

def entriesFor (db : Db) (txId : Int) : List JournalEntry :=
  db.journal_entries.filter (fun e => e.transaction_id == txId)

-- ======================= Transaction Poster =======================
-- from commands/transactions.rs

structure CreateTransactionInput where
  date : Date
  transaction_type : String
  amount : Money
  account_id : Int
  to_account_id : Option Int
  category_id : Option Int
  memo : Option String
deriving DecidableEq, Repr

/-- The journal rows the poster's `match` on the transaction type inserts
(transactions.rs:172–227); `none` for the match's unreachable `_` arm. The
TRANSFER arm's `to_account_id.unwrap()` is only reached after validation
guaranteed `some`, so `getD` never takes its default there. -/
def journal_rows (txId : Int) (input : CreateTransactionInput) :
    Option (List JournalEntry) :=
  match input.transaction_type with
  | "INCOME" => some [⟨txId, input.account_id, input.amount, 0⟩]
  | "EXPENSE" => some [⟨txId, input.account_id, 0, input.amount⟩]
  | "TRANSFER" =>
    some [⟨txId, input.account_id, 0, input.amount⟩,
          ⟨txId, input.to_account_id.getD 0, input.amount, 0⟩]
  | _ => none

/-- `create_transaction` (transactions.rs:81–235): validation chain, then one
atomic unit inserting the transaction row and its journal entries. The Rust
nested TRANSFER block is flattened into guarded conditions with identical
behaviour. An `.error` result corresponds to a run where nothing was written
(every validation precedes `pool.begin()`, and the unit commits atomically). -/
def create_transaction (db : Db) (input : CreateTransactionInput) :
    Except String (Db × Int) :=
  if input.transaction_type ≠ "INCOME" ∧ input.transaction_type ≠ "EXPENSE" ∧
      input.transaction_type ≠ "TRANSFER" then
    .error "Invalid transaction type"
  else if input.amount ≤ 0 then
    .error "Amount must be greater than zero"
  else if ¬ accountExists db input.account_id then
    .error "Account does not exist"
  else if input.transaction_type = "TRANSFER" ∧ input.to_account_id = none then
    .error "Transfer requires to_account_id"
  else if input.transaction_type = "TRANSFER" ∧
      input.to_account_id = some input.account_id then
    .error "Cannot transfer to the same account"
  else if input.transaction_type = "TRANSFER" ∧
      ¬ input.to_account_id.all (fun t => accountExists db t) then
    .error "Destination account does not exist"
  else if input.category_id.any (fun c => ! categoryExists db c) then
    .error "Category does not exist"
  else
    match journal_rows db.next_transaction_id input with
    | some es =>
      .ok ({ db with
              transactions := db.transactions ++
                [⟨db.next_transaction_id, input.date, input.transaction_type,
                  input.amount, input.account_id, input.to_account_id,
                  input.category_id, input.memo⟩],
              journal_entries := db.journal_entries ++ es,
              next_transaction_id := db.next_transaction_id + 1 },
            db.next_transaction_id)
    | none => .error "Invalid transaction type"

/-- `delete_transaction` (transactions.rs:292–305): unconditional `DELETE` by
id, always `Ok(())`. The removal of the transaction's journal entries is
modelled from the spec: the migrations defining the schema are not under
`src/`; the code comment at transactions.rs:297 and spec §3 ("Entries are
immutable and are deleted only in cascade with their transaction") state the
`journal_entries → transactions` foreign key carries ON DELETE CASCADE. -/
def delete_transaction (db : Db) (transaction_id : Int) : Except String Db :=
  .ok { db with
    transactions := db.transactions.filter (fun t => t.id != transaction_id),
    journal_entries :=
      db.journal_entries.filter (fun e => e.transaction_id != transaction_id) }

-- ======================= Balance Calculator =======================

/-- `get_accounts_with_balance` (accounts.rs:69–79): current balance =
initial_balance + (SUM(debit) − SUM(credit)) over the account's journal
entries, with no date condition and no join. -/
def current_balance (db : Db) (a : Account) : Money :=
  let es := db.journal_entries.filter (fun e => e.account_id == a.id)
  a.initial_balance + (sumDebit es - sumCredit es)

/-- Closing balance as of a date (analytics.rs:171–197): initial_balance +
(SUM(debit) − SUM(credit)) over the account's entries inner-joined to their
owning transaction with `t.date <= end_date`. Since `transactions.id` is the
table's primary key, the join contributes each entry at most once, i.e. it is
the semijoin written here with `any`. -/
def balance_as_of (db : Db) (a : Account) (endDate : Date) : Money :=
  let es := db.journal_entries.filter (fun e =>
    e.account_id == a.id &&
    db.transactions.any (fun t => t.id == e.transaction_id &&
      Date.leb t.date endDate))
  a.initial_balance + (sumDebit es - sumCredit es)

theorem sum_map_sub_entries (es : List JournalEntry) :
    (es.map (fun e => e.debit - e.credit)).sum = sumDebit es - sumCredit es := by
  induction es with
  | nil => simp [sumDebit, sumCredit]
  | cons e t ih =>
    simp only [List.map_cons, List.sum_cons, sumDebit, sumCredit] at ih ⊢
    rw [ih]; ring

theorem sumDebit_perm {es₁ es₂ : List JournalEntry} (h : es₁.Perm es₂) :
    sumDebit es₁ = sumDebit es₂ := (h.map _).sum_eq

theorem sumCredit_perm {es₁ es₂ : List JournalEntry} (h : es₁.Perm es₂) :
    sumCredit es₁ = sumCredit es₂ := (h.map _).sum_eq

theorem perm_any_eq {α : Type} {l₁ l₂ : List α} (h : l₁.Perm l₂) (p : α → Bool) :
    l₁.any p = l₂.any p := by
  cases hb : l₂.any p
  · rw [List.any_eq_false] at hb ⊢
    intro x hx; exact hb x (h.mem_iff.mp hx)
  · rw [List.any_eq_true] at hb ⊢
    obtain ⟨x, hx, hp⟩ := hb; exact ⟨x, h.mem_iff.mpr hx, hp⟩

/-- C2: for every account, the balance with no as-of date equals
initial_balance plus Σ(debit − credit) over all the account's journal entries,
independently of insertion order; with an as-of date, only entries whose owning
transaction's date is ≤ that date are summed (again order-independently). -/
theorem balance_as_of_correct (db : Db) (a : Account) :
    (current_balance db a =
      a.initial_balance +
        ((db.journal_entries.filter (fun e => e.account_id == a.id)).map
          (fun e => e.debit - e.credit)).sum) ∧
    (∀ db' : Db, db'.journal_entries.Perm db.journal_entries →
      current_balance db' a = current_balance db a) ∧
    (∀ endDate : Date,
      balance_as_of db a endDate =
        a.initial_balance +
          ((db.journal_entries.filter (fun e =>
              decide (e.account_id = a.id ∧ ∃ t ∈ db.transactions,
                t.id = e.transaction_id ∧ t.date.key ≤ endDate.key))).map
            (fun e => e.debit - e.credit)).sum) ∧
    (∀ (db' : Db) (endDate : Date), db'.journal_entries.Perm db.journal_entries →
      db'.transactions.Perm db.transactions →
      balance_as_of db' a endDate = balance_as_of db a endDate) := by
  refine ⟨?_, ?_, ?_, ?_⟩
  · unfold current_balance
    rw [sum_map_sub_entries]
  · intro db' h
    unfold current_balance
    have hf := h.filter (fun e => e.account_id == a.id)
    simp only [sumDebit_perm hf, sumCredit_perm hf]
  · intro endDate
    unfold balance_as_of
    rw [List.filter_congr (fun e _ => ?_), sum_map_sub_entries]
    rw [Bool.eq_iff_iff]
    simp [Date.leb, List.any_eq_true, Bool.and_eq_true, beq_iff_eq,
      decide_eq_true_iff]
  · intro db' endDate hje htx
    unfold balance_as_of
    have hcongr : ∀ e ∈ db'.journal_entries,
        (e.account_id == a.id &&
          db'.transactions.any (fun t => t.id == e.transaction_id &&
            Date.leb t.date endDate)) =
        (e.account_id == a.id &&
          db.transactions.any (fun t => t.id == e.transaction_id &&
            Date.leb t.date endDate)) := by
      intro e _
      rw [perm_any_eq htx]
    rw [List.filter_congr hcongr]
    have hf := hje.filter (fun e =>
      e.account_id == a.id &&
        db.transactions.any (fun t => t.id == e.transaction_id &&
          Date.leb t.date endDate))
    simp only [sumDebit_perm hf, sumCredit_perm hf]

theorem journal_rows_isSome (txId : Int) (input : CreateTransactionInput)
    (h : input.transaction_type = "INCOME" ∨ input.transaction_type = "EXPENSE" ∨
      input.transaction_type = "TRANSFER") :
    ∃ es, journal_rows txId input = some es ∧ es ≠ [] := by
  rcases h with h | h | h
  · exact ⟨[⟨txId, input.account_id, input.amount, 0⟩],
      by simp [journal_rows, h], by simp⟩
  · exact ⟨[⟨txId, input.account_id, 0, input.amount⟩],
      by simp [journal_rows, h], by simp⟩
  · exact ⟨[⟨txId, input.account_id, 0, input.amount⟩,
      ⟨txId, input.to_account_id.getD 0, input.amount, 0⟩],
      by simp [journal_rows, h], by simp⟩

theorem journal_rows_ne_nil {txId : Int} {input : CreateTransactionInput}
    {es : List JournalEntry} (h : journal_rows txId input = some es) :
    es ≠ [] := by
  unfold journal_rows at h
  split at h <;> (cases h <;> simp)

/-- Shape of a successful `create_transaction`: the fresh id, the appended
transaction row, the appended journal rows, and every other table untouched. -/
theorem create_transaction_ok_shape (db : Db) (input : CreateTransactionInput)
    (db' : Db) (txId : Int)
    (hok : create_transaction db input = .ok (db', txId)) :
    txId = db.next_transaction_id ∧
    db'.transactions = db.transactions ++
      [⟨txId, input.date, input.transaction_type, input.amount,
        input.account_id, input.to_account_id, input.category_id,
        input.memo⟩] ∧
    (∃ es, journal_rows txId input = some es ∧ es ≠ [] ∧
      db'.journal_entries = db.journal_entries ++ es) ∧
    db'.accounts = db.accounts ∧ db'.categories = db.categories ∧
    db'.account_groups = db.account_groups ∧
    db'.credit_card_settings = db.credit_card_settings ∧
    db'.credit_card_statements = db.credit_card_statements ∧
    db'.exchange_rates = db.exchange_rates ∧
    db'.net_worth_snapshots = db.net_worth_snapshots := by
  unfold create_transaction at hok
  split at hok
  · cases hok
  split at hok
  · cases hok
  split at hok
  · cases hok
  split at hok
  · cases hok
  split at hok
  · cases hok
  split at hok
  · cases hok
  split at hok
  · cases hok
  split at hok
  case _ es heq =>
    rw [Except.ok.injEq, Prod.mk.injEq] at hok
    obtain ⟨hdb, hid⟩ := hok
    subst hid; subst hdb
    exact ⟨rfl, rfl, ⟨es, heq, journal_rows_ne_nil heq, rfl⟩,
      rfl, rfl, rfl, rfl, rfl, rfl, rfl⟩
  case _ => cases hok

/-- C8: `create_transaction` fails exactly when the kind is not
INCOME/EXPENSE/TRANSFER, the amount is ≤ 0, the source account is missing, a
TRANSFER has no destination or a self or missing destination, or a provided
category is missing; on success the transaction row and all its postings are
appended in one atomic unit and no other table changes. An `.error` result
writes nothing by construction of the embedding, matching the code's
validate-before-`begin`, commit-at-end shape. -/
theorem create_transaction_error_characterization (db : Db)
    (input : CreateTransactionInput) :
    ((∃ msg, create_transaction db input = .error msg) ↔
      ((input.transaction_type ≠ "INCOME" ∧ input.transaction_type ≠ "EXPENSE" ∧
          input.transaction_type ≠ "TRANSFER") ∨
        input.amount ≤ 0 ∨
        ¬ accountExists db input.account_id ∨
        (input.transaction_type = "TRANSFER" ∧
          (input.to_account_id = none ∨
            input.to_account_id = some input.account_id ∨
            (∃ t, input.to_account_id = some t ∧ ¬ accountExists db t))) ∨
        (∃ c, input.category_id = some c ∧ ¬ categoryExists db c))) ∧
    (∀ db' txId, create_transaction db input = .ok (db', txId) →
      txId = db.next_transaction_id ∧
      db'.transactions = db.transactions ++
        [⟨txId, input.date, input.transaction_type, input.amount,
          input.account_id, input.to_account_id, input.category_id,
          input.memo⟩] ∧
      (∃ es, journal_rows txId input = some es ∧ es ≠ [] ∧
        db'.journal_entries = db.journal_entries ++ es) ∧
      db'.accounts = db.accounts ∧ db'.categories = db.categories ∧
      db'.account_groups = db.account_groups ∧
      db'.credit_card_settings = db.credit_card_settings ∧
      db'.credit_card_statements = db.credit_card_statements ∧
      db'.exchange_rates = db.exchange_rates ∧
      db'.net_worth_snapshots = db.net_worth_snapshots) := by
  refine ⟨?_, fun db' txId hok => create_transaction_ok_shape db input db' txId hok⟩
  unfold create_transaction
  by_cases h1 : input.transaction_type ≠ "INCOME" ∧
      input.transaction_type ≠ "EXPENSE" ∧ input.transaction_type ≠ "TRANSFER"
  · rw [if_pos h1]
    exact ⟨fun _ => Or.inl h1, fun _ => ⟨_, rfl⟩⟩
  rw [if_neg h1]
  by_cases h2 : input.amount ≤ 0
  · rw [if_pos h2]
    exact ⟨fun _ => Or.inr (Or.inl h2), fun _ => ⟨_, rfl⟩⟩
  rw [if_neg h2]
  by_cases h3 : ¬ accountExists db input.account_id
  · rw [if_pos h3]
    exact ⟨fun _ => Or.inr (Or.inr (Or.inl h3)), fun _ => ⟨_, rfl⟩⟩
  rw [if_neg h3]
  by_cases h4 : input.transaction_type = "TRANSFER" ∧ input.to_account_id = none
  · rw [if_pos h4]
    exact ⟨fun _ => Or.inr (Or.inr (Or.inr (Or.inl ⟨h4.1, Or.inl h4.2⟩))),
      fun _ => ⟨_, rfl⟩⟩
  rw [if_neg h4]
  by_cases h5 : input.transaction_type = "TRANSFER" ∧
      input.to_account_id = some input.account_id
  · rw [if_pos h5]
    exact ⟨fun _ =>
      Or.inr (Or.inr (Or.inr (Or.inl ⟨h5.1, Or.inr (Or.inl h5.2)⟩))),
      fun _ => ⟨_, rfl⟩⟩
  rw [if_neg h5]
  by_cases h6 : input.transaction_type = "TRANSFER" ∧
      ¬ input.to_account_id.all (fun t => accountExists db t)
  · rw [if_pos h6]
    refine ⟨fun _ => ?_, fun _ => ⟨_, rfl⟩⟩
    obtain ⟨hT, hall⟩ := h6
    refine Or.inr (Or.inr (Or.inr (Or.inl ⟨hT, Or.inr (Or.inr ?_)⟩)))
    match hto : input.to_account_id with
    | none => exact absurd (by simp [hto]) hall
    | some t =>
      refine ⟨t, rfl, fun hex => hall ?_⟩
      simp [hto, hex]
  rw [if_neg h6]
  by_cases h7 : input.category_id.any (fun c => ! categoryExists db c)
  · rw [if_pos h7]
    refine ⟨fun _ => ?_, fun _ => ⟨_, rfl⟩⟩
    refine Or.inr (Or.inr (Or.inr (Or.inr ?_)))
    match hc : input.category_id with
    | none => rw [hc] at h7; simp [Option.any] at h7
    | some c =>
      rw [hc] at h7
      simp only [Option.any, Bool.not_eq_true'] at h7
      exact ⟨c, rfl, by simp [h7]⟩
  rw [if_neg h7]
  have hkind : input.transaction_type = "INCOME" ∨
      input.transaction_type = "EXPENSE" ∨
      input.transaction_type = "TRANSFER" := by tauto
  obtain ⟨es, hes, hne⟩ := journal_rows_isSome db.next_transaction_id input hkind
  simp only [hes]
  constructor
  · intro ⟨msg, hmsg⟩; cases hmsg
  · intro hdisj
    exfalso
    rcases hdisj with hd | hd | hd | ⟨hT, hd⟩ | ⟨c, hc, hnex⟩
    · exact h1 hd
    · exact h2 hd
    · exact h3 hd
    · rcases hd with hd | hd | ⟨t, hto, hnex⟩
      · exact h4 ⟨hT, hd⟩
      · exact h5 ⟨hT, hd⟩
      · exact h6 ⟨hT, by simp [hto, hnex]⟩
    · exact h7 (by simp [hc, hnex])

/-- The two journal rows `settle_credit_card` posts with its settlement
TRANSFER (credit_cards.rs:733–753): credit the payment (asset) account,
debit the credit-card account, both by the payment amount. -/
def settle_journal_entries (txId payment_account_id card_account_id : Int)
    (payment_amount : Money) : List JournalEntry :=
  [⟨txId, payment_account_id, 0, payment_amount⟩,
   ⟨txId, card_account_id, payment_amount, 0⟩]

-- Small concrete stores for instantiating theorems.

def db0 : Db :=
  { account_groups := [⟨1, "ASSET"⟩, ⟨2, "LIABILITY"⟩],
    accounts := [⟨1, 1, 10⟩, ⟨2, 2, 0⟩],
    categories := [7],
    transactions := [⟨1, ⟨2025, 1, 2⟩, "INCOME", 5, 1, none, some 7, none⟩,
                     ⟨2, ⟨2025, 1, 4⟩, "EXPENSE", 3, 1, none, some 7, none⟩],
    journal_entries := [⟨1, 1, 5, 0⟩, ⟨2, 1, 0, 3⟩],
    credit_card_settings := [],
    credit_card_statements := [],
    exchange_rates := [],
    net_worth_snapshots := [],
    next_transaction_id := 3 }

def db0Swapped : Db :=
  { db0 with journal_entries := [⟨2, 1, 0, 3⟩, ⟨1, 1, 5, 0⟩] }

def incomeInput : CreateTransactionInput :=
  ⟨⟨2025, 2, 1⟩, "INCOME", 100, 1, none, none, none⟩

def transferInput : CreateTransactionInput :=
  ⟨⟨2025, 2, 1⟩, "TRANSFER", 50, 1, some 2, none, none⟩

def dbIncomeResult : Db :=
  match create_transaction db0 incomeInput with
  | .ok (d, _) => d
  | .error _ => db0

def dbTransferResult : Db :=
  match create_transaction db0 transferInput with
  | .ok (d, _) => d
  | .error _ => db0

def db0Del99 : Db := (delete_transaction db0 99).toOption.getD db0

/-- C1 counterexample: posting an INCOME of 100 succeeds, and the journal
entries of the created transaction have Σdebit = 100 but Σcredit = 0 — the
claimed invariant Σdebit = Σcredit fails for INCOME (and symmetrically for
EXPENSE), because those kinds post a single one-sided entry. -/
theorem income_postings_unbalanced :
    create_transaction db0 incomeInput = .ok (dbIncomeResult, 3) ∧
    sumDebit (entriesFor dbIncomeResult 3) = 100 ∧
    sumCredit (entriesFor dbIncomeResult 3) = 0 ∧
    sumDebit (entriesFor dbIncomeResult 3) ≠
      sumCredit (entriesFor dbIncomeResult 3) := by
  have hent : entriesFor dbIncomeResult 3 = [⟨3, 1, 100, 0⟩] := by rfl
  have hd : sumDebit (entriesFor dbIncomeResult 3) = 100 := by
    rw [hent]; simp [sumDebit]
  have hc : sumCredit (entriesFor dbIncomeResult 3) = 0 := by
    rw [hent]; simp [sumCredit]
  exact ⟨rfl, hd, hc, by rw [hd, hc]; norm_num⟩

/-- C1 (amended): a TRANSFER posted by `create_transaction` and the settlement
transfer posted by `settle_credit_card` have Σdebit = Σcredit over their
journal entries; an INCOME posts the single entry (debit = amount, credit = 0)
and an EXPENSE the single entry (debit = 0, credit = amount), so for those two
kinds Σdebit − Σcredit is +amount resp. −amount. -/
theorem transaction_postings_balance (db db' : Db)
    (input : CreateTransactionInput) (txId : Int)
    (hok : create_transaction db input = .ok (db', txId))
    (hfresh : ∀ e ∈ db.journal_entries, e.transaction_id ≠ txId) :
    (input.transaction_type = "TRANSFER" →
      sumDebit (entriesFor db' txId) = sumCredit (entriesFor db' txId)) ∧
    (input.transaction_type = "INCOME" →
      entriesFor db' txId = [⟨txId, input.account_id, input.amount, 0⟩] ∧
      sumDebit (entriesFor db' txId) - sumCredit (entriesFor db' txId) =
        input.amount) ∧
    (input.transaction_type = "EXPENSE" →
      entriesFor db' txId = [⟨txId, input.account_id, 0, input.amount⟩] ∧
      sumDebit (entriesFor db' txId) - sumCredit (entriesFor db' txId) =
        - input.amount) ∧
    (∀ pa ca amt, sumDebit (settle_journal_entries txId pa ca amt) =
      sumCredit (settle_journal_entries txId pa ca amt)) := by
  obtain ⟨hid, htx, ⟨es, hes, hne, hje⟩, _⟩ :=
    create_transaction_ok_shape db input db' txId hok
  have hfold : db.journal_entries.filter (fun e => e.transaction_id == txId) = [] := by
    rw [List.filter_eq_nil_iff]
    intro e he
    simpa using hfresh e he
  have hentries : entriesFor db' txId =
      es.filter (fun e => e.transaction_id == txId) := by
    unfold entriesFor
    rw [hje, List.filter_append, hfold, List.nil_append]
  refine ⟨?_, ?_, ?_, ?_⟩
  · intro hT
    simp only [journal_rows, hT] at hes
    rw [Option.some.injEq] at hes
    subst hes
    rw [hentries]
    simp [sumDebit, sumCredit]
  · intro hI
    simp only [journal_rows, hI] at hes
    rw [Option.some.injEq] at hes
    subst hes
    rw [hentries]
    simp [sumDebit, sumCredit]
  · intro hE
    simp only [journal_rows, hE] at hes
    rw [Option.some.injEq] at hes
    subst hes
    rw [hentries]
    simp [sumDebit, sumCredit]
  · intro pa ca amt
    simp [settle_journal_entries, sumDebit, sumCredit]

theorem transaction_postings_balance_witness :
    sumDebit (entriesFor dbTransferResult 3) =
      sumCredit (entriesFor dbTransferResult 3) :=
  (transaction_postings_balance db0 dbTransferResult transferInput 3 rfl
    (by decide)).1 rfl

theorem balance_as_of_correct_witness :
    current_balance db0Swapped ⟨1, 1, 10⟩ = current_balance db0 ⟨1, 1, 10⟩ :=
  (balance_as_of_correct db0 ⟨1, 1, 10⟩).2.1 db0Swapped (by decide)

theorem create_transaction_error_characterization_witness :
    ∃ msg, create_transaction db0
      ⟨⟨2025, 2, 1⟩, "EXPENSE", 4, 1, none, some 99, none⟩ = .error msg :=
  (create_transaction_error_characterization db0
    ⟨⟨2025, 2, 1⟩, "EXPENSE", 4, 1, none, some 99, none⟩).1.mpr
    (Or.inr (Or.inr (Or.inr (Or.inr ⟨99, rfl, by decide⟩))))

/-- C10: `delete_transaction` always returns success, including for an id with
no transaction row (a silent no-op on such states respecting referential
integrity); when the transaction exists, it and its journal entries (cascade)
are removed, everything else untouched. -/
theorem delete_transaction_total (db : Db) (txId : Int) :
    (∃ db', delete_transaction db txId = .ok db') ∧
    (∀ db', delete_transaction db txId = .ok db' →
      ((∀ t ∈ db.transactions, t.id ≠ txId) →
        (∀ e ∈ db.journal_entries, e.transaction_id ≠ txId) → db' = db) ∧
      (∀ t ∈ db'.transactions, t.id ≠ txId) ∧
      (∀ e ∈ db'.journal_entries, e.transaction_id ≠ txId) ∧
      (∀ t ∈ db.transactions, t.id ≠ txId → t ∈ db'.transactions) ∧
      (∀ e ∈ db.journal_entries, e.transaction_id ≠ txId →
        e ∈ db'.journal_entries) ∧
      db'.accounts = db.accounts ∧
      db'.credit_card_statements = db.credit_card_statements) := by
  refine ⟨⟨_, rfl⟩, ?_⟩
  intro db' hok
  unfold delete_transaction at hok
  rw [Except.ok.injEq] at hok
  subst hok
  refine ⟨?_, ?_, ?_, ?_, ?_, rfl, rfl⟩
  · intro ht he
    have h1 : db.transactions.filter (fun t => t.id != txId) = db.transactions :=
      List.filter_eq_self.mpr (fun t hmem => by simpa using ht t hmem)
    have h2 : db.journal_entries.filter
        (fun e => e.transaction_id != txId) = db.journal_entries :=
      List.filter_eq_self.mpr (fun e hmem => by simpa using he e hmem)
    simp only [h1, h2]
  · intro t ht
    simpa using List.of_mem_filter ht
  · intro e he
    simpa using List.of_mem_filter he
  · intro t ht hne
    exact List.mem_filter.mpr ⟨ht, by simpa using hne⟩
  · intro e he hne
    exact List.mem_filter.mpr ⟨he, by simpa using hne⟩

theorem delete_transaction_total_witness : db0Del99 = db0 :=
  ((delete_transaction_total db0 99).2 db0Del99 rfl).1 (by decide) (by decide)

-- ======================= Statement payment allocation =======================
-- from commands/credit_cards.rs, update_statement_payment_status (1179–1242)

/-- `ORDER BY due_date ASC` ordering on statement rows. -/
def dueLe (a b : CreditCardStatement) : Prop := a.due_date.key ≤ b.due_date.key

instance : DecidableRel dueLe := fun x y => Int.decLe x.due_date.key y.due_date.key

instance : IsTotal CreditCardStatement dueLe :=
  ⟨fun x y => Int.le_total x.due_date.key y.due_date.key⟩

instance : IsTrans CreditCardStatement dueLe := ⟨fun _ _ _ hab hbc => le_trans hab hbc⟩

/-- The rows the sweep fetches (credit_cards.rs:1186–1197): this card's
statements with `status IN ('OPEN','CLOSED','PARTIAL')`, ordered by due_date
ascending (the `ORDER BY` is any sort w.r.t. `dueLe`; ties are unspecified in
SQL and insertion sort picks one). -/
def sweep_rows (db : Db) (settings_id : Int) : List CreditCardStatement :=
  List.insertionSort dueLe (db.credit_card_statements.filter (fun s =>
    s.credit_card_id == settings_id &&
    (s.status == StmtStatus.OPEN || s.status == StmtStatus.CLOSED ||
      s.status == StmtStatus.PARTIAL)))

/-- The allocation loop of `update_statement_payment_status`
(credit_cards.rs:1199–1239) acting on the fetched rows: skip a statement whose
remaining (closing − paid) is ≤ 0 (`continue`), stop once the payment is
exhausted (`break` — the remaining rows stay untouched), otherwise apply
`min(remaining_payment, statement_remaining)` and write paid_amount, status
(PAID iff |new_paid − closing_balance| < 0.01, else PARTIAL) and paid_date. -/
def allocatePayment (stmts : List CreditCardStatement)
    (remaining_payment : Money) (paid_date : Date) :
    List CreditCardStatement :=
  match stmts with
  | [] => []
  | s :: rest =>
    if remaining_payment ≤ 0 then s :: rest
    else
      let stmt_remaining := s.closing_balance - s.paid_amount
      if stmt_remaining ≤ 0 then
        s :: allocatePayment rest remaining_payment paid_date
      else
        let apply_amount := min remaining_payment stmt_remaining
        let new_paid := s.paid_amount + apply_amount
        let new_status := if |new_paid - s.closing_balance| < 1 / 100
          then StmtStatus.PAID else StmtStatus.PARTIAL
        { s with paid_amount := new_paid, status := new_status,
                 paid_date := some paid_date } ::
          allocatePayment rest (remaining_payment - apply_amount) paid_date

/-- The full sweep, as the list of statement rows it leaves behind for the
visited selection. -/
def update_statement_payment_status (db : Db) (settings_id : Int)
    (payment_amount : Money) (paid_date : Date) : List CreditCardStatement :=
  allocatePayment (sweep_rows db settings_id) payment_amount paid_date

/-- The fields the sweep never writes. -/
def stmtCore (s : CreditCardStatement) : Int × Int × Date × Money :=
  (s.id, s.credit_card_id, s.due_date, s.closing_balance)

def paidSum (l : List CreditCardStatement) : Money :=
  (l.map (fun s => s.paid_amount)).sum

def remSum (l : List CreditCardStatement) : Money :=
  (l.map (fun s => s.closing_balance - s.paid_amount)).sum

theorem paidSum_cons (s : CreditCardStatement) (l : List CreditCardStatement) :
    paidSum (s :: l) = s.paid_amount + paidSum l := by
  simp [paidSum]

theorem remSum_cons (s : CreditCardStatement) (l : List CreditCardStatement) :
    remSum (s :: l) = (s.closing_balance - s.paid_amount) + remSum l := by
  simp [remSum]

theorem min_alloc_key (p r t : ℚ) (_hp : 0 ≤ p) (_hr : 0 ≤ r) (ht : 0 ≤ t) :
    min p r + min (p - min p r) t = min p (r + t) := by
  rcases le_total p r with hle | hle
  · rw [min_eq_left hle, sub_self, min_eq_left ht,
      min_eq_left (by linarith : p ≤ r + t)]
    ring
  · rw [min_eq_right hle]
    rcases le_total (p - r) t with h3 | h3
    · rw [min_eq_left h3, min_eq_left (by linarith : p ≤ r + t)]
      ring
    · rw [min_eq_right h3, min_eq_right (by linarith : r + t ≤ p)]

theorem allocatePayment_map_core (l : List CreditCardStatement) (p : Money)
    (d : Date) : (allocatePayment l p d).map stmtCore = l.map stmtCore := by
  induction l generalizing p with
  | nil => rfl
  | cons s rest ih =>
    simp only [allocatePayment]
    split_ifs with h1 h2 h3
    · rfl
    · simp [ih]
    · simp [stmtCore, ih]
    · simp [stmtCore, ih]

theorem allocatePayment_mem_spec (l : List CreditCardStatement) (p : Money)
    (d : Date) :
    ∀ s' ∈ allocatePayment l p d,
      s' ∈ l ∨
      (0 ≤ s'.closing_balance - s'.paid_amount ∧
        s'.status = (if |s'.paid_amount - s'.closing_balance| < 1 / 100
          then StmtStatus.PAID else StmtStatus.PARTIAL) ∧
        s'.paid_date = some d) := by
  induction l generalizing p with
  | nil => simp [allocatePayment]
  | cons s rest ih =>
    intro s' hs'
    simp only [allocatePayment] at hs'
    split_ifs at hs' with h1 h2 h3
    · exact Or.inl hs'
    · rcases List.mem_cons.mp hs' with h | h
      · exact Or.inl (h ▸ List.mem_cons_self s rest)
      · rcases ih _ s' h with h' | h'
        · exact Or.inl (List.mem_cons_of_mem _ h')
        · exact Or.inr h'
    · rcases List.mem_cons.mp hs' with h | h
      · subst h
        refine Or.inr ⟨?_, ?_, rfl⟩
        · have hmin := min_le_right p (s.closing_balance - s.paid_amount)
          dsimp only
          linarith
        · dsimp only
          rw [if_pos h3]
      · rcases ih _ s' h with h' | h'
        · exact Or.inl (List.mem_cons_of_mem _ h')
        · exact Or.inr h'
    · rcases List.mem_cons.mp hs' with h | h
      · subst h
        refine Or.inr ⟨?_, ?_, rfl⟩
        · have hmin := min_le_right p (s.closing_balance - s.paid_amount)
          dsimp only
          linarith
        · dsimp only
          rw [if_neg h3]
      · rcases ih _ s' h with h' | h'
        · exact Or.inl (List.mem_cons_of_mem _ h')
        · exact Or.inr h'

theorem allocatePayment_nonneg (l : List CreditCardStatement) (p : Money)
    (d : Date) (h : ∀ s ∈ l, 0 ≤ s.closing_balance - s.paid_amount) :
    ∀ s' ∈ allocatePayment l p d, 0 ≤ s'.closing_balance - s'.paid_amount := by
  intro s' hs'
  rcases allocatePayment_mem_spec l p d s' hs' with hmem | hmod
  · exact h s' hmem
  · exact hmod.1

theorem remSum_nonneg {l : List CreditCardStatement}
    (h : ∀ s ∈ l, 0 ≤ s.closing_balance - s.paid_amount) : 0 ≤ remSum l :=
  List.sum_nonneg (by
    intro x hx
    obtain ⟨s, hs, rfl⟩ := List.mem_map.mp hx
    exact h s hs)

theorem allocatePayment_paidSum (l : List CreditCardStatement) (p : Money)
    (d : Date) (hp : 0 ≤ p)
    (h : ∀ s ∈ l, 0 ≤ s.closing_balance - s.paid_amount) :
    paidSum (allocatePayment l p d) = paidSum l + min p (remSum l) := by
  induction l generalizing p with
  | nil =>
    simp [allocatePayment, paidSum, remSum, min_eq_right hp]
  | cons s rest ih =>
    have hs := h s (List.mem_cons_self s rest)
    have hrest : ∀ t ∈ rest, 0 ≤ t.closing_balance - t.paid_amount :=
      fun t ht => h t (List.mem_cons_of_mem s ht)
    have hrs := remSum_nonneg hrest
    simp only [allocatePayment]
    split_ifs with h1 h2 h3
    · have hp0 : p = 0 := le_antisymm h1 hp
      subst hp0
      rw [min_eq_left (remSum_nonneg h), add_zero]
    · have hrem0 : s.closing_balance - s.paid_amount = 0 := le_antisymm h2 hs
      rw [paidSum_cons, ih p hp hrest, paidSum_cons, remSum_cons, hrem0,
        zero_add]
      ring
    all_goals {
      have hq : min p (s.closing_balance - s.paid_amount) ≤ p := min_le_left _ _
      have hok : 0 ≤ p - min p (s.closing_balance - s.paid_amount) := by
        linarith
      have key := min_alloc_key p (s.closing_balance - s.paid_amount)
        (remSum rest) hp hs hrs
      rw [paidSum_cons, ih _ hok hrest, paidSum_cons, remSum_cons]
      dsimp only
      linarith [key]
    }

/-- C3: the payment sweep visits exactly this card's non-PAID statements in
ascending due-date order; each visited statement absorbs
min(remaining_payment, its remaining), carrying any remainder onward; the
immutable fields are untouched; no statement ends with negative remaining;
every modified statement is marked PAID exactly when
|paid_amount − closing_balance| < 0.01, else PARTIAL, with paid_date set. -/
theorem update_statement_payment_status_correct (db : Db) (sid : Int)
    (p : Money) (d : Date) (hp : 0 ≤ p)
    (hrem : ∀ s ∈ sweep_rows db sid, 0 ≤ s.closing_balance - s.paid_amount) :
    List.Sorted dueLe (sweep_rows db sid) ∧
    (sweep_rows db sid).Perm (db.credit_card_statements.filter
      (fun s => s.credit_card_id == sid && !(s.status == StmtStatus.PAID))) ∧
    (update_statement_payment_status db sid p d).map stmtCore =
      (sweep_rows db sid).map stmtCore ∧
    (∀ s ∈ update_statement_payment_status db sid p d,
      0 ≤ s.closing_balance - s.paid_amount) ∧
    paidSum (update_statement_payment_status db sid p d) =
      paidSum (sweep_rows db sid) + min p (remSum (sweep_rows db sid)) ∧
    (∀ s ∈ update_statement_payment_status db sid p d,
      s ∈ sweep_rows db sid ∨
      (s.status = (if |s.paid_amount - s.closing_balance| < 1 / 100
        then StmtStatus.PAID else StmtStatus.PARTIAL) ∧
       s.paid_date = some d)) := by
  refine ⟨List.sorted_insertionSort dueLe _, ?_,
    allocatePayment_map_core (sweep_rows db sid) p d,
    allocatePayment_nonneg (sweep_rows db sid) p d hrem,
    allocatePayment_paidSum (sweep_rows db sid) p d hp hrem, ?_⟩
  · have h2 : db.credit_card_statements.filter (fun s =>
        s.credit_card_id == sid &&
        (s.status == StmtStatus.OPEN || s.status == StmtStatus.CLOSED ||
          s.status == StmtStatus.PARTIAL)) =
        db.credit_card_statements.filter
          (fun s => s.credit_card_id == sid && !(s.status == StmtStatus.PAID)) := by
      refine List.filter_congr (fun s _ => ?_)
      cases hst : s.status <;> simp [hst]
    unfold sweep_rows
    rw [h2]
    exact List.perm_insertionSort dueLe _
  · intro s hs
    rcases allocatePayment_mem_spec (sweep_rows db sid) p d s hs with h | h
    · exact Or.inl h
    · exact Or.inr ⟨h.2.1, h.2.2⟩

def stA : CreditCardStatement :=
  ⟨1, 1, ⟨2025, 3, 10⟩, ⟨2025, 3, 20⟩, ⟨2025, 2, 11⟩, ⟨2025, 3, 10⟩,
   0, 100, 0, 100, 5, .CLOSED, 0, none⟩

def stB : CreditCardStatement :=
  ⟨2, 1, ⟨2025, 4, 10⟩, ⟨2025, 4, 20⟩, ⟨2025, 3, 11⟩, ⟨2025, 4, 10⟩,
   100, 80, 100, 80, 4, .CLOSED, 0, none⟩

def dbSweep : Db :=
  { account_groups := [⟨1, "ASSET"⟩, ⟨2, "LIABILITY"⟩],
    accounts := [⟨1, 1, 1000⟩, ⟨2, 2, 0⟩],
    categories := [],
    transactions := [],
    journal_entries := [],
    credit_card_settings := [⟨1, 2, 500, 10, 20, 5, false, none⟩],
    credit_card_statements := [stA, stB],
    exchange_rates := [],
    net_worth_snapshots := [],
    next_transaction_id := 1 }

theorem update_statement_payment_status_correct_witness :
    paidSum (update_statement_payment_status dbSweep 1 150 ⟨2025, 4, 1⟩) =
      paidSum (sweep_rows dbSweep 1) +
        min 150 (remSum (sweep_rows dbSweep 1)) := by
  have h := update_statement_payment_status_correct dbSweep 1 150 ⟨2025, 4, 1⟩
    (by norm_num)
    (by
      intro s hs
      have hrows : sweep_rows dbSweep 1 = [stA, stB] := by rfl
      rw [hrows] at hs
      fin_cases hs <;> norm_num [stA, stB])
  exact h.2.2.2.2.1

-- ======================= Currency Rate Resolver =======================
-- from commands/currencies.rs, get_exchange_rate_internal (515–600)

/-- Fold step selecting the later-dated of two candidate rows (keeps the
first-encountered row on a date tie, which SQL leaves unspecified). -/
def pickLatest (acc : Option ExchangeRate) (r : ExchangeRate) :
    Option ExchangeRate :=
  match acc with
  | none => some r
  | some b => if b.effective_date.key < r.effective_date.key then some r
      else some b

/-- The row selected by `WHERE from_currency = ? AND to_currency = ? AND
effective_date <= ? ORDER BY effective_date DESC LIMIT 1` (currencies.rs:534–548
and 563–577): among the matching rows, one with maximal effective_date. -/
def latestOnOrBefore (rows : List ExchangeRate) (f t : String) (d : Date) :
    Option ExchangeRate :=
  (rows.filter (fun r => r.from_currency == f && r.to_currency == t &&
      Date.leb r.effective_date d)).foldl pickLatest none

/-- The two failure modes of the resolver: "Stored rate is invalid (zero or
negative)" and "No exchange rate found for ... on or before ...". -/
inductive RateError
  | invalidStoredRate
  | noRateFound
deriving DecidableEq, Repr

/-- `get_exchange_rate_internal` (currencies.rs:515–600), projected to the rate
of the `ExchangeRate` it returns (callers consume only `.rate`): identity 1.0
when from == to, else the most recent direct row on or before the date, else
the inverse of the most recent reversed row (error when the stored rate is
≤ 0), else no-rate-found. -/
def get_exchange_rate_internal (rows : List ExchangeRate) (f t : String)
    (d : Date) : Except RateError Money :=
  if f == t then .ok 1
  else
    match latestOnOrBefore rows f t d with
    | some r => .ok r.rate
    | none =>
      match latestOnOrBefore rows t f d with
      | some r =>
        if r.rate ≤ 0 then .error .invalidStoredRate
        else .ok (1 / r.rate)
      | none => .error .noRateFound

theorem pickLatest_spec (cands : List ExchangeRate) :
    ∀ (acc : Option ExchangeRate) (r : ExchangeRate),
      cands.foldl pickLatest acc = some r →
      (acc = some r ∨ r ∈ cands) ∧
      (∀ q ∈ cands, q.effective_date.key ≤ r.effective_date.key) ∧
      (∀ b, acc = some b → b.effective_date.key ≤ r.effective_date.key) := by
  induction cands with
  | nil =>
    intro acc r h
    simp only [List.foldl_nil] at h
    refine ⟨Or.inl h, by simp, fun b hb => ?_⟩
    rw [hb] at h
    rw [Option.some.inj h]
  | cons c rest ih =>
    intro acc r h
    simp only [List.foldl_cons] at h
    rcases acc with _ | b
    · have h' : rest.foldl pickLatest (some c) = some r := h
      obtain ⟨hmem, hmax, hacc⟩ := ih (some c) r h'
      have hcr : c.effective_date.key ≤ r.effective_date.key := hacc c rfl
      refine ⟨?_, ?_, by simp⟩
      · rcases hmem with h1 | h1
        · exact Or.inr (List.mem_cons.mpr (Or.inl (Option.some.inj h1).symm))
        · exact Or.inr (List.mem_cons.mpr (Or.inr h1))
      · intro q hq
        rcases List.mem_cons.mp hq with rfl | hq'
        · exact hcr
        · exact hmax q hq'
    · have hred : pickLatest (some b) c =
          if b.effective_date.key < c.effective_date.key then some c
          else some b := rfl
      rw [hred] at h
      by_cases hlt : b.effective_date.key < c.effective_date.key
      · rw [if_pos hlt] at h
        obtain ⟨hmem, hmax, hacc⟩ := ih (some c) r h
        have hcr : c.effective_date.key ≤ r.effective_date.key := hacc c rfl
        refine ⟨?_, ?_, ?_⟩
        · rcases hmem with h1 | h1
          · exact Or.inr (List.mem_cons.mpr (Or.inl (Option.some.inj h1).symm))
          · exact Or.inr (List.mem_cons.mpr (Or.inr h1))
        · intro q hq
          rcases List.mem_cons.mp hq with rfl | hq'
          · exact hcr
          · exact hmax q hq'
        · intro b' hb'
          rw [← Option.some.inj hb']
          exact le_of_lt (lt_of_lt_of_le hlt hcr)
      · rw [if_neg hlt] at h
        obtain ⟨hmem, hmax, hacc⟩ := ih (some b) r h
        have hbr : b.effective_date.key ≤ r.effective_date.key := hacc b rfl
        have hcb : c.effective_date.key ≤ b.effective_date.key :=
          le_of_not_lt hlt
        refine ⟨?_, ?_, ?_⟩
        · rcases hmem with h1 | h1
          · exact Or.inl h1
          · exact Or.inr (List.mem_cons.mpr (Or.inr h1))
        · intro q hq
          rcases List.mem_cons.mp hq with rfl | hq'
          · exact le_trans hcb hbr
          · exact hmax q hq'
        · intro b' hb'
          rw [← Option.some.inj hb']
          exact hbr

theorem latestOnOrBefore_spec (rows : List ExchangeRate) (f t : String)
    (d : Date) (r : ExchangeRate) (h : latestOnOrBefore rows f t d = some r) :
    r ∈ rows ∧ r.from_currency = f ∧ r.to_currency = t ∧
    r.effective_date.key ≤ d.key ∧
    (∀ q ∈ rows, q.from_currency = f → q.to_currency = t →
      q.effective_date.key ≤ d.key →
      q.effective_date.key ≤ r.effective_date.key) := by
  unfold latestOnOrBefore at h
  obtain ⟨hmem, hmax, -⟩ := pickLatest_spec _ none r h
  rcases hmem with h1 | h1
  · cases h1
  · have := List.mem_filter.mp h1
    obtain ⟨hr, hpred⟩ := this
    simp only [Bool.and_eq_true, beq_iff_eq, Date.leb, decide_eq_true_iff] at hpred
    refine ⟨hr, hpred.1.1, hpred.1.2, hpred.2, ?_⟩
    intro q hq hqf hqt hqd
    refine hmax q (List.mem_filter.mpr ⟨hq, ?_⟩)
    simp [Date.leb, hqf, hqt, hqd]

/-- The spec's concrete rate table: a single USD→LKR rate of 300 effective
2025-01-01. -/
def usdLkrRows : List ExchangeRate := [⟨1, "USD", "LKR", 300, ⟨2025, 1, 1⟩⟩]

/-- C5: the rate resolver returns 1.0 on identity; else the rate of the most
recent matching direct row on or before the date; else the inverse 1/rate of
the most recent reversed row (an error when the stored rate is ≤ 0); else a
no-rate-found error. In particular, with only a USD→LKR rate of 300 effective
2025-01-01, rate(LKR, USD, 2025-01-05) = 1/300 and rate(USD, LKR, 2024-12-01)
fails with no rate found. -/
theorem get_exchange_rate_correct (rows : List ExchangeRate) (f t : String)
    (d : Date) :
    (f = t → get_exchange_rate_internal rows f t d = .ok 1) ∧
    (f ≠ t → ∀ r, latestOnOrBefore rows f t d = some r →
      get_exchange_rate_internal rows f t d = .ok r.rate ∧
      r ∈ rows ∧ r.from_currency = f ∧ r.to_currency = t ∧
      r.effective_date.key ≤ d.key ∧
      (∀ q ∈ rows, q.from_currency = f → q.to_currency = t →
        q.effective_date.key ≤ d.key →
        q.effective_date.key ≤ r.effective_date.key)) ∧
    (f ≠ t → latestOnOrBefore rows f t d = none →
      ∀ r, latestOnOrBefore rows t f d = some r →
        (0 < r.rate → get_exchange_rate_internal rows f t d = .ok (1 / r.rate)) ∧
        (r.rate ≤ 0 →
          get_exchange_rate_internal rows f t d = .error .invalidStoredRate)) ∧
    (f ≠ t → latestOnOrBefore rows f t d = none →
      latestOnOrBefore rows t f d = none →
      get_exchange_rate_internal rows f t d = .error .noRateFound) ∧
    get_exchange_rate_internal usdLkrRows "LKR" "USD" ⟨2025, 1, 5⟩ =
      .ok (1 / 300) ∧
    get_exchange_rate_internal usdLkrRows "USD" "LKR" ⟨2024, 12, 1⟩ =
      .error .noRateFound := by
  have hbeq : ∀ a b : String, a ≠ b → (a == b) = false := by
    intro a b hab; simp [hab]
  refine ⟨?_, ?_, ?_, ?_, by rfl, by rfl⟩
  · intro hft
    unfold get_exchange_rate_internal
    rw [if_pos (by simp [hft])]
  · intro hft r hr
    unfold get_exchange_rate_internal
    rw [hbeq f t hft, if_neg (by simp), hr]
    exact ⟨rfl, latestOnOrBefore_spec rows f t d r hr⟩
  · intro hft hdirect r hinv
    unfold get_exchange_rate_internal
    rw [hbeq f t hft, if_neg (by simp), hdirect, hinv]
    constructor
    · intro hpos
      have hn : ¬ (r.rate ≤ 0) := not_le.mpr hpos
      simp [hn]
    · intro hle
      simp [hle]
  · intro hft hdirect hinv
    unfold get_exchange_rate_internal
    rw [hbeq f t hft, if_neg (by simp), hdirect, hinv]

theorem get_exchange_rate_correct_witness :
    get_exchange_rate_internal usdLkrRows "USD" "USD" ⟨2025, 1, 5⟩ = .ok 1 :=
  (get_exchange_rate_correct usdLkrRows "USD" "USD" ⟨2025, 1, 5⟩).1 rfl

-- ======================= Budget Period Engine =======================
-- from commands/budgets.rs, get_budget_status (162–258)

/-- The budget-window end computed by `get_budget_status` (budgets.rs:194–208):
MONTHLY maps the anchor one month forward re-using its day-of-month via
`from_ymd_opt`, falling back (`unwrap_or`) to the start date itself when that
day does not exist in the target month; YEARLY adds one year with the same
fallback; any other period string is an error. -/
def budget_period_end (start : Date) (period : String) : Except String Date :=
  match period with
  | "MONTHLY" =>
    let next_month :=
      if start.month == 12 then fromYmdOpt (start.year + 1) 1 start.day
      else fromYmdOpt start.year (start.month + 1) start.day
    .ok (next_month.getD start)
  | "YEARLY" =>
    .ok ((fromYmdOpt (start.year + 1) start.month start.day).getD start)
  | _ => .error "Invalid budget period"

/-- C6 counterexample: a MONTHLY budget anchored 2024-01-31 gets window end
2024-01-31 — the start date itself via the `unwrap_or` fallback — not the
month-end-clamped 2024-02-29 the claim states. -/
theorem budget_window_no_clamp_counterexample :
    budget_period_end ⟨2024, 1, 31⟩ "MONTHLY" = .ok ⟨2024, 1, 31⟩ ∧
    budget_period_end ⟨2024, 1, 31⟩ "MONTHLY" ≠ .ok ⟨2024, 2, 29⟩ := by
  have he : budget_period_end ⟨2024, 1, 31⟩ "MONTHLY" = .ok ⟨2024, 1, 31⟩ := rfl
  refine ⟨he, fun h => ?_⟩
  rw [he] at h
  exact absurd (Except.ok.inj h) (by decide)

/-- C6 (amended): for a valid MONTHLY anchor, when the anchor's day-of-month
exists in the following month the window end is that same day one month later;
otherwise (day 29–31 absent from the next month) the computation does NOT clamp
to the month end — it falls back to the anchor itself, so a budget anchored
2024-01-31 has window end 2024-01-31 rather than 2024-02-29. -/
theorem budget_period_end_correct (start : Date) (hv : start.Valid) :
    (start.day ≤ daysInMonth
        (if start.month = 12 then start.year + 1 else start.year)
        (if start.month = 12 then 1 else start.month + 1) →
      budget_period_end start "MONTHLY" =
        .ok ⟨(if start.month = 12 then start.year + 1 else start.year),
             (if start.month = 12 then 1 else start.month + 1), start.day⟩) ∧
    (daysInMonth (if start.month = 12 then start.year + 1 else start.year)
        (if start.month = 12 then 1 else start.month + 1) < start.day →
      budget_period_end start "MONTHLY" = .ok start) := by
  obtain ⟨hm1, hm12, hd1, _⟩ := hv
  constructor
  · intro hdays
    unfold budget_period_end
    by_cases h12 : start.month = 12
    · rw [h12] at hdays ⊢
      simp only [beq_self_eq_true, if_true] at hdays ⊢
      rw [show fromYmdOpt (start.year + 1) 1 start.day =
          some ⟨start.year + 1, 1, start.day⟩ from by
        unfold fromYmdOpt
        rw [if_pos ⟨by omega, by omega, hd1, by simpa using hdays⟩]]
      rfl
    · have hb : (start.month == 12) = false := by simp [h12]
      rw [hb] at *
      simp only [if_neg h12, Bool.false_eq_true, if_false] at hdays ⊢
      rw [show fromYmdOpt start.year (start.month + 1) start.day =
          some ⟨start.year, start.month + 1, start.day⟩ from by
        unfold fromYmdOpt
        rw [if_pos ⟨by omega, by omega, hd1, hdays⟩]]
      rfl
  · intro hdays
    unfold budget_period_end
    by_cases h12 : start.month = 12
    · rw [h12] at hdays ⊢
      simp only [beq_self_eq_true, if_true] at hdays ⊢
      rw [show fromYmdOpt (start.year + 1) 1 start.day = none from by
        unfold fromYmdOpt
        rw [if_neg (by simp; omega)]]
      rfl
    · have hb : (start.month == 12) = false := by simp [h12]
      simp only [hb, if_neg h12, Bool.false_eq_true, if_false] at hdays ⊢
      rw [show fromYmdOpt start.year (start.month + 1) start.day = none from by
        unfold fromYmdOpt
        rw [if_neg (by omega)]]
      rfl

theorem budget_period_end_correct_witness :
    budget_period_end ⟨2024, 1, 31⟩ "MONTHLY" = .ok ⟨2024, 1, 31⟩ :=
  (budget_period_end_correct ⟨2024, 1, 31⟩ (by decide)).2 (by decide)

-- ======================= Net Worth Snapshotter =======================
-- from commands/networth.rs

/-- `last_day_of_month` (networth.rs:74–82): the day before the first of the
next month, with the `unwrap_or_else` day-28 fallback. -/
def last_day_of_month (y : Int) (m : Nat) : Date :=
  match (if m = 12 then fromYmdOpt (y + 1) 1 1 else fromYmdOpt y (m + 1) 1) with
  | some d => d.pred
  | none => ⟨y, m, 28⟩

/-- The `accounts JOIN account_groups` lookup: the group type of an account. -/
def accountGroupType (db : Db) (id : Int) : Option String :=
  (db.accounts.find? (fun a => a.id == id)).bind
    (fun a => (db.account_groups.find? (fun g => g.id == a.group_id)).map
      (fun g => g.type))

/-- Journal balance Σdebit − Σcredit of one account, optionally restricted to
entries whose owning transaction (primary-key semijoin) has date ≤ as-of
(the two queries of calc_net_worth_at, networth.rs:15–49). -/
def journal_balance (db : Db) (accountId : Int) (asOf : Option Date) : Money :=
  let es := db.journal_entries.filter (fun e =>
    e.account_id == accountId &&
    (match asOf with
     | none => true
     | some dt => db.transactions.any (fun t => t.id == e.transaction_id &&
         Date.leb t.date dt)))
  sumDebit es - sumCredit es

/-- Rust `f64::round`: round half away from zero. -/
def roundHalfAwayFromZero (x : ℚ) : Int :=
  if 0 ≤ x then ⌊x + 1 / 2⌋ else -⌊-x + 1 / 2⌋

/-- Rust `(x * 100.0).round() / 100.0`. -/
def round2 (x : Money) : Money := (roundHalfAwayFromZero (x * 100) : ℚ) / 100

/-- `calc_net_worth_at` (networth.rs:11–71): the (assets, liabilities) pair,
each rounded to 2 decimals; an account contributes its balance when its group
type is ASSET, `max(−balance, 0)` when LIABILITY, nothing otherwise; accounts
whose group row is missing are dropped by the JOIN (same as the `_ => {}`
arm). -/
def calc_net_worth_at (db : Db) (asOf : Option Date) : Money × Money :=
  let contribs := db.accounts.map (fun a =>
    match accountGroupType db a.id with
    | some ty =>
      let balance := a.initial_balance + journal_balance db a.id asOf
      if ty = "ASSET" then (balance, (0 : Money))
      else if ty = "LIABILITY" then ((0 : Money), max (-balance) 0)
      else ((0 : Money), (0 : Money))
    | none => ((0 : Money), (0 : Money)))
  (round2 (contribs.map Prod.fst).sum, round2 (contribs.map Prod.snd).sum)

/-- `SELECT MIN(date) FROM transactions` (networth.rs:218–228). -/
def earliest_transaction_date (db : Db) : Option Date :=
  db.transactions.foldl (fun acc tx =>
    match acc with
    | none => some tx.date
    | some d => if tx.date.key < d.key then some tx.date else some d) none

theorem daysInMonth_le_31 (y : Int) (m : Nat) : daysInMonth y m ≤ 31 := by
  unfold daysInMonth
  split <;> first | omega | (split <;> omega)

theorem last_day_eq (y : Int) (m : Nat) (h1 : 1 ≤ m) (h2 : m ≤ 11) :
    last_day_of_month y m = ⟨y, m, daysInMonth y m⟩ := by
  unfold last_day_of_month
  rw [if_neg (by omega : ¬ m = 12),
    fromYmdOpt_eq_some y (m + 1) 1 (by omega) (by omega) le_rfl (by omega)]
  unfold Date.pred
  dsimp only
  rw [if_neg (by omega), if_pos (by omega)]
  simp

theorem lastDay_12 (y : Int) : last_day_of_month y 12 = ⟨y, 12, 31⟩ := by
  unfold last_day_of_month
  rw [if_pos rfl,
    fromYmdOpt_eq_some (y + 1) 1 1 le_rfl (by omega) le_rfl (by omega)]
  unfold Date.pred
  dsimp only
  rw [if_neg (by omega), if_neg (by omega)]
  congr 1
  omega

theorem lastDay_0 (y : Int) : last_day_of_month y 0 = ⟨y - 1, 12, 31⟩ := by
  unfold last_day_of_month
  rw [if_neg (by omega),
    fromYmdOpt_eq_some y 1 1 le_rfl (by omega) le_rfl (by omega)]
  unfold Date.pred
  dsimp only
  rw [if_neg (by omega), if_neg (by omega)]

theorem lastDay_invalid (y : Int) (m : Nat) (h : 13 ≤ m) :
    last_day_of_month y m = ⟨y, m, 28⟩ := by
  unfold last_day_of_month
  rw [if_neg (by omega)]
  rw [show fromYmdOpt y (m + 1) 1 = none from by
    unfold fromYmdOpt
    exact if_neg (fun h' => absurd h'.2.1 (by omega))]

theorem lastDay_key_lt_succ (y : Int) (m : Nat) (hm : m ≠ 12) :
    (last_day_of_month y m).key < (last_day_of_month y (m + 1)).key := by
  rcases Nat.lt_or_ge m 13 with h13 | h13
  · rcases Nat.eq_zero_or_pos m with h0 | hpos
    · subst h0
      rw [lastDay_0, last_day_eq y 1 le_rfl (by omega)]
      simp only [Date.key, daysInMonth]
      omega
    · rcases Nat.lt_or_ge m 11 with h11 | h11
      · rw [last_day_eq y m hpos (by omega),
          last_day_eq y (m + 1) (by omega) (by omega)]
        have d2 := daysInMonth_le_31 y m
        have d3 := daysInMonth_ge_28 y (m + 1) (by omega) (by omega)
        simp only [Date.key]
        push_cast
        omega
      · have hm11 : m = 11 := by omega
        subst hm11
        rw [last_day_eq y 11 (by omega) le_rfl, lastDay_12]
        simp only [Date.key, daysInMonth]
        omega
  · rw [lastDay_invalid y m h13, lastDay_invalid y (m + 1) (by omega)]
    simp only [Date.key]
    push_cast
    omega

theorem lastDay_key_lt_year (y : Int) :
    (last_day_of_month y 12).key < (last_day_of_month (y + 1) 1).key := by
  rw [lastDay_12, last_day_eq (y + 1) 1 le_rfl (by omega)]
  simp only [Date.key, daysInMonth]
  omega

/-- The backfill month loop (networth.rs:230–262): walk month-ends from the
starting (year, month) while the month-end is not after today, stepping
month-by-month with a December year rollover. -/
def backfill_months (today : Date) (y : Int) (m : Nat) : List Date :=
  if today.key < (last_day_of_month y m).key then []
  else
    last_day_of_month y m ::
      (if m = 12 then backfill_months today (y + 1) 1
       else backfill_months today y (m + 1))
termination_by (today.key + 1 - (last_day_of_month y m).key).toNat
decreasing_by
  · have hm : m = 12 := by assumption
    subst hm
    have hlt := lastDay_key_lt_year y
    omega
  · have hm : ¬ m = 12 := by assumption
    have hlt := lastDay_key_lt_succ y m hm
    omega

/-- `INSERT OR IGNORE INTO net_worth_snapshots ...` (networth.rs:244–253).
Modelled from the spec: the migrations defining the schema are not under
`src/`; §3 ("NetWorthSnapshot ... One row per month; upserted, never
duplicated") says snapshot_date is unique, so the insert is skipped when a row
with the same snapshot_date already exists. -/
def insert_snapshot_or_ignore (snaps : List NetWorthSnapshot)
    (s : NetWorthSnapshot) : List NetWorthSnapshot :=
  if snaps.any (fun t => t.snapshot_date == s.snapshot_date) then snaps
  else snaps ++ [s]

/-- The snapshot row backfill inserts for one month-end. -/
def mkSnapshot (db : Db) (d : Date) : NetWorthSnapshot :=
  ⟨d, (calc_net_worth_at db (some d)).1, (calc_net_worth_at db (some d)).2,
   (calc_net_worth_at db (some d)).1 - (calc_net_worth_at db (some d)).2⟩

/-- `backfill_net_worth_snapshots` (networth.rs:206–265): a no-op when
COUNT(*) of snapshots is nonzero; otherwise walks month-ends from the earliest
transaction's month (nothing to do when there are no transactions), inserting
one snapshot per month-end. -/
def backfill_net_worth_snapshots (db : Db) (today : Date) : Db :=
  if db.net_worth_snapshots.length ≠ 0 then db
  else
    match earliest_transaction_date db with
    | none => db
    | some start =>
      let months := backfill_months today start.year start.month
      let snaps := months.foldl
        (fun snaps d => insert_snapshot_or_ignore snaps (mkSnapshot db d))
        db.net_worth_snapshots
      { db with net_worth_snapshots := snaps }

theorem insert_snapshot_ne_nil (snaps : List NetWorthSnapshot)
    (s : NetWorthSnapshot) : insert_snapshot_or_ignore snaps s ≠ [] := by
  unfold insert_snapshot_or_ignore
  split_ifs with h
  · cases snaps with
    | nil => simp at h
    | cons a l => simp
  · simp

theorem foldl_insert_ne_nil (ds : List Date) (mk : Date → NetWorthSnapshot) :
    ∀ snaps, snaps ≠ [] →
      ds.foldl (fun acc d => insert_snapshot_or_ignore acc (mk d)) snaps ≠ [] := by
  induction ds with
  | nil => intro snaps h; simpa using h
  | cons d rest ih =>
    intro snaps _
    simp only [List.foldl_cons]
    exact ih _ (insert_snapshot_ne_nil snaps (mk d))

theorem foldl_insert_eq_nil (ds : List Date) (mk : Date → NetWorthSnapshot)
    (snaps : List NetWorthSnapshot)
    (h : ds.foldl (fun acc d => insert_snapshot_or_ignore acc (mk d)) snaps = []) :
    ds = [] ∧ snaps = [] := by
  cases ds with
  | nil => exact ⟨rfl, by simpa using h⟩
  | cons d rest =>
    exfalso
    simp only [List.foldl_cons] at h
    exact foldl_insert_ne_nil rest mk _ (insert_snapshot_ne_nil snaps (mk d)) h

theorem insert_snapshot_nodup (snaps : List NetWorthSnapshot)
    (s : NetWorthSnapshot)
    (h : (snaps.map (fun t => t.snapshot_date)).Nodup) :
    ((insert_snapshot_or_ignore snaps s).map
      (fun t => t.snapshot_date)).Nodup := by
  unfold insert_snapshot_or_ignore
  split_ifs with hmem
  · exact h
  · rw [List.map_append, List.nodup_append]
    refine ⟨h, by simp, ?_⟩
    intro a ha hb
    simp only [List.map_cons, List.map_nil, List.mem_singleton] at hb
    subst hb
    obtain ⟨t, ht, htd⟩ := List.mem_map.mp ha
    exact hmem (List.any_eq_true.mpr ⟨t, ht, by simp [htd]⟩)

theorem foldl_insert_nodup (ds : List Date) (mk : Date → NetWorthSnapshot) :
    ∀ snaps, (snaps.map (fun t => t.snapshot_date)).Nodup →
      ((ds.foldl (fun acc d => insert_snapshot_or_ignore acc (mk d))
          snaps).map (fun t => t.snapshot_date)).Nodup := by
  induction ds with
  | nil => intro snaps h; simpa using h
  | cons d rest ih =>
    intro snaps h
    simp only [List.foldl_cons]
    exact ih _ (insert_snapshot_nodup snaps (mk d) h)

theorem backfill_noop (db : Db) (today : Date)
    (h : db.net_worth_snapshots ≠ []) :
    backfill_net_worth_snapshots db today = db := by
  unfold backfill_net_worth_snapshots
  rw [if_pos (by simpa [List.length_eq_zero] using h)]

theorem backfill_result_empty (db : Db) (today : Date)
    (h0 : db.net_worth_snapshots = [])
    (h1 : (backfill_net_worth_snapshots db today).net_worth_snapshots = []) :
    backfill_net_worth_snapshots db today = db := by
  unfold backfill_net_worth_snapshots at h1 ⊢
  rw [if_neg (by simp [h0])] at h1 ⊢
  cases heq : earliest_transaction_date db with
  | none => rfl
  | some start =>
    rw [heq] at h1
    dsimp only at h1 ⊢
    obtain ⟨hds, -⟩ := foldl_insert_eq_nil
      (backfill_months today start.year start.month) (mkSnapshot db)
      db.net_worth_snapshots h1
    rw [hds]
    rfl

theorem backfill_twice (db : Db) (today : Date) :
    backfill_net_worth_snapshots (backfill_net_worth_snapshots db today)
      today = backfill_net_worth_snapshots db today := by
  by_cases h1 :
      (backfill_net_worth_snapshots db today).net_worth_snapshots = []
  · by_cases h0 : db.net_worth_snapshots = []
    · have heq := backfill_result_empty db today h0 h1
      rw [heq]
      exact heq
    · exfalso
      have := backfill_noop db today h0
      rw [this] at h1
      exact h0 h1
  · exact backfill_noop _ today h1

theorem backfill_produces_nodup (db : Db) (today : Date)
    (h0 : db.net_worth_snapshots = []) :
    (((backfill_net_worth_snapshots db today).net_worth_snapshots).map
      (fun s => s.snapshot_date)).Nodup := by
  unfold backfill_net_worth_snapshots
  rw [if_neg (by simp [h0])]
  cases earliest_transaction_date db with
  | none => simp [h0]
  | some start =>
    dsimp only
    exact foldl_insert_nodup _ (mkSnapshot db) _ (by rw [h0]; simp)

/-- C7: calling backfill twice in succession is the same as calling it once
(so the second run writes nothing), backfill is a no-op whenever any snapshot
row already exists, and a backfill run on an empty snapshot table emits no two
rows with the same snapshot_date (month-end). -/
theorem backfill_idempotent (db : Db) (today : Date) :
    (db.net_worth_snapshots ≠ [] →
      backfill_net_worth_snapshots db today = db) ∧
    backfill_net_worth_snapshots (backfill_net_worth_snapshots db today)
      today = backfill_net_worth_snapshots db today ∧
    (db.net_worth_snapshots = [] →
      (((backfill_net_worth_snapshots (backfill_net_worth_snapshots db today)
          today).net_worth_snapshots).map
        (fun s => s.snapshot_date)).Nodup) :=
  ⟨fun h => backfill_noop db today h, backfill_twice db today,
   fun h0 => by
     rw [backfill_twice db today]
     exact backfill_produces_nodup db today h0⟩

def dbSnap : Db :=
  { db0 with net_worth_snapshots := [⟨⟨2025, 1, 31⟩, 10, 0, 10⟩] }

theorem backfill_idempotent_witness :
    backfill_net_worth_snapshots dbSnap ⟨2025, 6, 15⟩ = dbSnap :=
  (backfill_idempotent dbSnap ⟨2025, 6, 15⟩).1 (by simp [dbSnap])

-- ======================= Credit-card settlement =======================
-- from commands/credit_cards.rs, settle_credit_card (654–769)

structure SettlementInput where
  credit_card_settings_id : Int
  payment_account_id : Int
  amount : Option Money
  date : Option Date
deriving DecidableEq, Repr

structure CardBalances where
  total_balance : Money
  outstanding_balance : Money
  available_credit : Money
  current_cycle_charges : Money
  current_cycle_payments : Money
  utilization_percentage : Money
deriving DecidableEq, Repr

def sumAmount (ts : List Transaction) : Money := (ts.map (fun t => t.amount)).sum

/-- `calculate_card_balances` (credit_cards.rs:1001–1085): liability magnitude
of the card account plus current-cycle charge/payment figures. The `fetch_one`
of the account row fails on a missing account. -/
def calculate_card_balances (db : Db) (settings : CreditCardSettings)
    (today : Date) : Except String CardBalances :=
  match db.accounts.find? (fun a => a.id == settings.account_id) with
  | none => .error "Database error"
  | some account =>
    let raw_balance := account.initial_balance +
      journal_balance db settings.account_id none
    let total_balance := -raw_balance
    let cycle_start := (compute_current_cycle_dates today settings.statement_day).1
    let current_cycle_charges := sumAmount (db.transactions.filter (fun t =>
      t.account_id == settings.account_id && t.type == "EXPENSE" &&
      Date.leb cycle_start t.date))
    let current_cycle_payments := sumAmount (db.transactions.filter (fun t =>
      t.to_account_id == some settings.account_id && t.type == "TRANSFER" &&
      Date.leb cycle_start t.date))
    let outstanding_balance := current_cycle_charges - current_cycle_payments
    let available_credit := if 0 < settings.credit_limit
      then max (settings.credit_limit - total_balance) 0 else 0
    let utilization_percentage := if 0 < settings.credit_limit
      then (roundHalfAwayFromZero (total_balance / settings.credit_limit *
        100 * 100) : ℚ) / 100
      else 0
    .ok ⟨max total_balance 0, max outstanding_balance 0, available_credit,
      current_cycle_charges, current_cycle_payments, utilization_percentage⟩

/-- One `UPDATE credit_card_statements SET paid_amount = ?, status = ?,
paid_date = ? WHERE id = ?` (credit_cards.rs:1225–1238). -/
def applyStatementUpdate (db : Db) (stmt_id : Int) (new_paid : Money)
    (new_status : StmtStatus) (paid_date : Date) : Db :=
  let rows := db.credit_card_statements.map (fun s =>
    if s.id == stmt_id then
      { s with paid_amount := new_paid, status := new_status,
               paid_date := some paid_date }
    else s)
  { db with credit_card_statements := rows }

/-- The sweep loop of `update_statement_payment_status` as executed against
the store: the statement rows were fetched once up front (`sweep_rows`), and
each UPDATE then runs with `.execute(pool)` — its own implicit unit, with no
enclosing store transaction (`settle_credit_card` calls the sweep only after
`tx.commit()`). `failAt = some k` injects a TransientStoreError (§7) at the
k-th UPDATE (0-based); the error carries the state observable afterwards, in
which the UPDATEs already executed persist. -/
def sweepRun (db : Db) (rows : List CreditCardStatement)
    (remaining_payment : Money) (paid_date : Date) (failAt : Option Nat)
    (idx : Nat) : Except (String × Db) Db :=
  match rows with
  | [] => .ok db
  | s :: rest =>
    if remaining_payment ≤ 0 then .ok db
    else
      let stmt_remaining := s.closing_balance - s.paid_amount
      if stmt_remaining ≤ 0 then
        sweepRun db rest remaining_payment paid_date failAt idx
      else
        let apply_amount := min remaining_payment stmt_remaining
        let new_paid := s.paid_amount + apply_amount
        let new_status := if |new_paid - s.closing_balance| < 1 / 100
          then StmtStatus.PAID else StmtStatus.PARTIAL
        if failAt = some idx then
          .error ("Failed to update statement status", db)
        else
          sweepRun (applyStatementUpdate db s.id new_paid new_status paid_date)
            rest (remaining_payment - apply_amount) paid_date failAt (idx + 1)

/-- `update_statement_payment_status` (credit_cards.rs:1179–1242) against the
store, with injectable failure. -/
def update_statement_payment_status_run (db : Db) (settings_id : Int)
    (payment_amount : Money) (paid_date : Date) (failAt : Option Nat) :
    Except (String × Db) Db :=
  sweepRun db (sweep_rows db settings_id) payment_amount paid_date failAt 0

/-- The settlement tail after validation (credit_cards.rs:704–767): the
TRANSFER row plus its two journal postings commit as ONE atomic unit
(`pool.begin()` at line 709, `tx.commit()` at line 755), and only then the
statement sweep runs on the pool. -/
def settle_post (db : Db) (input : SettlementInput)
    (settings : CreditCardSettings) (today : Date) (payment_amount : Money)
    (failAt : Option Nat) : Except (String × Db) Db :=
  let date := input.date.getD today
  let txId := db.next_transaction_id
  let txRow : Transaction :=
    ⟨txId, date, "TRANSFER", payment_amount, input.payment_account_id,
     some settings.account_id, none,
     some ("Credit card payment - " ++ toString settings.account_id)⟩
  let txs := db.transactions ++ [txRow]
  let jes := db.journal_entries ++ settle_journal_entries txId
    input.payment_account_id settings.account_id payment_amount
  let db1 : Db :=
    { db with
      transactions := txs
      journal_entries := jes
      next_transaction_id := txId + 1 }
  update_statement_payment_status_run db1 input.credit_card_settings_id
    payment_amount date failAt

/-- `settle_credit_card` (credit_cards.rs:654–769) with an injectable store
failure in the post-commit sweep; every validation precedes any write, and an
`.error` carries the state observable after the failure. -/
def settle_credit_card_run (db : Db) (input : SettlementInput) (today : Date)
    (failAt : Option Nat) : Except (String × Db) Db :=
  match db.credit_card_settings.find?
      (fun s => s.id == input.credit_card_settings_id) with
  | none => .error ("Credit card settings not found", db)
  | some settings =>
    match accountGroupType db input.payment_account_id with
    | none => .error ("Payment account not found", db)
    | some payment_type =>
      if payment_type ≠ "ASSET" then
        .error ("Payment must come from an ASSET account (Bank/Cash/Savings)",
          db)
      else if input.payment_account_id == settings.account_id then
        .error ("Cannot pay credit card from itself", db)
      else
        match calculate_card_balances db settings today with
        | .error e => .error (e, db)
        | .ok balances =>
          match input.amount with
          | some amt =>
            if amt ≤ 0 then
              .error ("Payment amount must be greater than 0", db)
            else settle_post db input settings today amt failAt
          | none =>
            if balances.total_balance ≤ 0 then
              .error ("No outstanding balance to pay", db)
            else settle_post db input settings today balances.total_balance
              failAt

theorem sweepRun_preserves (rows : List CreditCardStatement) :
    ∀ (db : Db) (p : Money) (d : Date) (f : Option Nat) (i : Nat),
      (∀ db', sweepRun db rows p d f i = .ok db' →
        db'.transactions = db.transactions ∧
        db'.journal_entries = db.journal_entries) ∧
      (∀ e obs, sweepRun db rows p d f i = .error (e, obs) →
        obs.transactions = db.transactions ∧
        obs.journal_entries = db.journal_entries) := by
  induction rows with
  | nil =>
    intro db p d f i
    refine ⟨fun db' h => ?_, fun e obs h => ?_⟩
    · cases h; exact ⟨rfl, rfl⟩
    · cases h
  | cons s rest ih =>
    intro db p d f i
    constructor
    · intro db' h
      rw [sweepRun] at h
      dsimp only at h
      split_ifs at h with h1 h2 h3 h4 <;>
        first
          | (cases h; try exact ⟨rfl, rfl⟩)
          | (obtain ⟨ht, hj⟩ := (ih _ _ _ _ _).1 db' h; exact ⟨ht, hj⟩)
    · intro e obs h
      rw [sweepRun] at h
      dsimp only at h
      split_ifs at h with h1 h2 h3 h4 <;>
        first
          | (cases h; try exact ⟨rfl, rfl⟩)
          | (obtain ⟨ht, hj⟩ := (ih _ _ _ _ _).2 e obs h; exact ⟨ht, hj⟩)

/-- The transfer-persistence property: a state holds the original tables plus
one committed TRANSFER row and its balanced postings. -/
def HasCommittedTransfer (db obs : Db) : Prop :=
  ∃ txRow es, txRow.type = "TRANSFER" ∧
    obs.transactions = db.transactions ++ [txRow] ∧
    obs.journal_entries = db.journal_entries ++ es ∧
    sumDebit es = sumCredit es

theorem settle_post_spec (db : Db) (input : SettlementInput)
    (settings : CreditCardSettings) (today : Date) (pamt : Money)
    (failAt : Option Nat) :
    (∀ e obs, settle_post db input settings today pamt failAt =
        .error (e, obs) → HasCommittedTransfer db obs) ∧
    (∀ db', settle_post db input settings today pamt failAt = .ok db' →
      HasCommittedTransfer db db') := by
  constructor
  · intro e obs h
    unfold settle_post update_statement_payment_status_run at h
    obtain ⟨htx, hje⟩ := (sweepRun_preserves _ _ _ _ _ _).2 e obs h
    refine ⟨⟨db.next_transaction_id, input.date.getD today, "TRANSFER", pamt,
      input.payment_account_id, some settings.account_id, none,
      some ("Credit card payment - " ++ toString settings.account_id)⟩,
      settle_journal_entries db.next_transaction_id input.payment_account_id
        settings.account_id pamt, rfl, ?_, ?_, ?_⟩
    · exact htx
    · exact hje
    · simp [settle_journal_entries, sumDebit, sumCredit]
  · intro db' h
    unfold settle_post update_statement_payment_status_run at h
    obtain ⟨htx, hje⟩ := (sweepRun_preserves _ _ _ _ _ _).1 db' h
    refine ⟨⟨db.next_transaction_id, input.date.getD today, "TRANSFER", pamt,
      input.payment_account_id, some settings.account_id, none,
      some ("Credit card payment - " ++ toString settings.account_id)⟩,
      settle_journal_entries db.next_transaction_id input.payment_account_id
        settings.account_id pamt, rfl, ?_, ?_, ?_⟩
    · exact htx
    · exact hje
    · simp [settle_journal_entries, sumDebit, sumCredit]

/-- C9 (amended): the settlement's transfer insert and its two postings are
one atomic unit, committed before the sweep; the statement sweep then runs
outside any transaction. Hence every failing run leaves either the original
state (a validation failure — nothing written) or the original state plus the
committed balanced transfer with the sweep absent or partial; a successful run
likewise contains the committed transfer. The claimed rollback of the transfer
on a mid-sweep failure does not exist. -/
theorem settle_credit_card_run_atomicity (db : Db) (input : SettlementInput)
    (today : Date) (failAt : Option Nat) :
    (∀ e obs, settle_credit_card_run db input today failAt = .error (e, obs) →
      obs = db ∨ HasCommittedTransfer db obs) ∧
    (∀ db', settle_credit_card_run db input today failAt = .ok db' →
      HasCommittedTransfer db db') := by
  constructor
  · intro e obs herr
    unfold settle_credit_card_run at herr
    repeat' first
      | (cases herr; exact Or.inl rfl)
      | exact Or.inr ((settle_post_spec db input _ today _ failAt).1 e obs herr)
      | split at herr
  · intro db' hok
    unfold settle_credit_card_run at hok
    repeat' first
      | cases hok
      | exact (settle_post_spec db input _ today _ failAt).2 db' hok
      | split at hok

/-- The state after the settlement transfer of 150 from account 1 to the card
account 2 has committed, before any statement UPDATE has run. -/
def dbAfterTransfer : Db :=
  { dbSweep with
    transactions := [⟨1, ⟨2025, 4, 1⟩, "TRANSFER", 150, 1, some 2, none,
      some "Credit card payment - 2"⟩]
    journal_entries := [⟨1, 1, 0, 150⟩, ⟨1, 2, 150, 0⟩]
    next_transaction_id := 2 }

/-- Evaluation of a settlement of 150 against `dbSweep` where the very first
statement UPDATE of the sweep fails: the run errors with the committed
transfer still present. -/
theorem settle_demo_eval :
    settle_credit_card_run dbSweep ⟨1, 1, some 150, some ⟨2025, 4, 1⟩⟩
      ⟨2025, 4, 1⟩ (some 0) =
      .error ("Failed to update statement status", dbAfterTransfer) := by
  have h1 : settle_credit_card_run dbSweep ⟨1, 1, some 150, some ⟨2025, 4, 1⟩⟩
      ⟨2025, 4, 1⟩ (some 0) =
      sweepRun dbAfterTransfer [stA, stB] 150 ⟨2025, 4, 1⟩ (some 0) 0 := rfl
  rw [h1, sweepRun]
  rw [if_neg (by norm_num : ¬ (150 : ℚ) ≤ 0)]
  dsimp only
  rw [if_neg (by norm_num [stA] : ¬ stA.closing_balance - stA.paid_amount ≤ 0)]
  rw [if_pos rfl]

/-- C9 counterexample: a store failure during the first statement UPDATE of
the sweep leaves an observable state that is NOT the pre-settlement state —
it contains the committed transfer (one more transaction row) while the
allocation sweep is entirely absent, refuting the claimed all-or-nothing
rollback of transfer + sweep. -/
theorem settle_not_atomic_counterexample :
    settle_credit_card_run dbSweep ⟨1, 1, some 150, some ⟨2025, 4, 1⟩⟩
      ⟨2025, 4, 1⟩ (some 0) =
      .error ("Failed to update statement status", dbAfterTransfer) ∧
    dbAfterTransfer ≠ dbSweep ∧
    dbAfterTransfer.transactions.length = dbSweep.transactions.length + 1 ∧
    dbAfterTransfer.credit_card_statements = dbSweep.credit_card_statements := by
  refine ⟨settle_demo_eval, ?_, by simp [dbAfterTransfer, dbSweep], rfl⟩
  intro h
  have hlen := congrArg (fun x => x.transactions.length) h
  simp [dbAfterTransfer, dbSweep] at hlen

theorem settle_credit_card_run_atomicity_witness :
    dbAfterTransfer = dbSweep ∨ HasCommittedTransfer dbSweep dbAfterTransfer :=
  (settle_credit_card_run_atomicity dbSweep ⟨1, 1, some 150, some ⟨2025, 4, 1⟩⟩
    ⟨2025, 4, 1⟩ (some 0)).1 "Failed to update statement status"
    dbAfterTransfer settle_demo_eval

end MoneyManager